import Mathlib

/-!
Verification of the bmv2 PI table codec (`src/targets/bmv2/pi_tables_imp.cpp`).

The development shallowly embeds, translated from the source:
* `build_key` — decoding a packed match-key buffer into typed match params;
* `dump_action_data` — packing possibly-short action parameters into a
  fixed-width zero-padded buffer (asserts modelled as `Option` failure);
* `_pi_table_entries_fetch` — the two-pass (size, then fill) serializer of
  fetched entries, together with the other table operations and their
  device-error handling.

Byte buffers are `List Nat` (each element one byte); machine pointers that
only advance are modelled as an output list that only grows, or as an
explicit cursor index where the source uses pointer arithmetic.
Helpers that live in the PI library headers rather than in this translation
unit (`retrieve_uint32`, `emit_uint32`, status constants, ...) are modelled
from the specification and say so in their doc comments.
-/

set_option maxHeartbeats 1000000

namespace PIBmv2

/-- Match types of table match fields, as enumerated by the p4info schema
(`PI_P4INFO_MATCH_TYPE_*`). -/
inductive MatchType
  | exact
  | lpm
  | ternary
  | range
  | valid
deriving DecidableEq, Repr

/-- One match-field descriptor from the schema
(`pi_p4info_match_field_info_t`): its match type and bit width. -/
structure MatchFieldInfo where
  match_type : MatchType
  bitwidth : Nat
deriving DecidableEq, Repr

/-- `(bitwidth + 7) / 8`, the byte width derived from a bit width, as
computed by `size_t nbytes = (f_bw + 7) / 8` in the source. -/
def nbytes_of (bitwidth : Nat) : Nat := (bitwidth + 7) / 8

/-- Modelled from the spec: `retrieve_uint32` (PI serialization helper, not
part of this translation unit) reads a 4-byte big-endian unsigned integer
from the buffer and advances the cursor by 4 bytes. -/
def retrieve_uint32 (data : List Nat) : Nat :=
  (data.take 4).foldl (fun acc b => acc * 256 + b) 0

/-- A decoded match parameter (`BmMatchParam`, thrift union): tagged by
match type, carrying the byte strings read from the key buffer. -/
inductive BmMatchParam
  | valid (key : Bool)
  | exact (key : List Nat)
  | lpm (key : List Nat) (prefix_length : Nat)
  | ternary (key : List Nat) (mask : List Nat)
  | range (start : List Nat) (stop : List Nat)
deriving DecidableEq, Repr

/-- The decode loop of `build_key`, with the pointer `mk_data` modelled as
the cursor index `pos` into `data` (each source `mk_data += n` becomes
`pos + n`), and the output vector and `*requires_priority` threaded as an
accumulator.  Returns (params, requires_priority, final cursor). -/
def build_key_go (data : List Nat) :
    List MatchFieldInfo → Nat → Bool → List BmMatchParam × Bool × Nat
  | [], pos, rp => ([], rp, pos)
  | finfo :: fs, pos, rp =>
    let nbytes := nbytes_of finfo.bitwidth
    match finfo.match_type with
    | .valid =>
      let rest := build_key_go data fs (pos + 1) rp
      (BmMatchParam.valid (data.getD pos 0 != 0) :: rest.1, rest.2)
    | .exact =>
      let rest := build_key_go data fs (pos + nbytes) rp
      (BmMatchParam.exact ((data.drop pos).take nbytes) :: rest.1, rest.2)
    | .lpm =>
      let rest := build_key_go data fs (pos + nbytes + 4) rp
      (BmMatchParam.lpm ((data.drop pos).take nbytes)
          (retrieve_uint32 (data.drop (pos + nbytes))) :: rest.1, rest.2)
    | .ternary =>
      let rest := build_key_go data fs (pos + nbytes + nbytes) true
      (BmMatchParam.ternary ((data.drop pos).take nbytes)
          ((data.drop (pos + nbytes)).take nbytes) :: rest.1, rest.2)
    | .range =>
      let rest := build_key_go data fs (pos + nbytes + nbytes) true
      (BmMatchParam.range ((data.drop pos).take nbytes)
          ((data.drop (pos + nbytes)).take nbytes) :: rest.1, rest.2)

/-- `build_key`: decode a packed match-key buffer against the table's
ordered match-field descriptors; also returns `requires_priority`. -/
def build_key (fields : List MatchFieldInfo) (data : List Nat) :
    List BmMatchParam × Bool :=
  let r := build_key_go data fields 0 false
  (r.1, r.2.1)

/-- Total number of key-buffer bytes consumed by `build_key` (final value
of the `mk_data` cursor). -/
def build_key_consumed (fields : List MatchFieldInfo) (data : List Nat) : Nat :=
  (build_key_go data fields 0 false).2.2

/-- Spec-side per-field encoded size: Valid 1 byte; Exact `byteWidth`;
LPM `byteWidth + 4`; Ternary and Range `byteWidth + byteWidth`. -/
def field_encoded_size (f : MatchFieldInfo) : Nat :=
  let w := (f.bitwidth + 7) / 8
  match f.match_type with
  | .valid => 1
  | .exact => w
  | .lpm => w + 4
  | .ternary => w + w
  | .range => w + w

/-- Spec-side decode of a single field from the front of a buffer, written
from the spec's per-field decode rules (§4.1 of the spec). -/
def specDecodeField (f : MatchFieldInfo) (buf : List Nat) : BmMatchParam :=
  let w := (f.bitwidth + 7) / 8
  match f.match_type with
  | .valid => BmMatchParam.valid (buf.getD 0 0 != 0)
  | .exact => BmMatchParam.exact (buf.take w)
  | .lpm => BmMatchParam.lpm (buf.take w) (retrieve_uint32 (buf.drop w))
  | .ternary => BmMatchParam.ternary (buf.take w) ((buf.drop w).take w)
  | .range => BmMatchParam.range (buf.take w) ((buf.drop w).take w)

/-- Spec-side decode of a whole key: one field after the other, each
consuming exactly its encoded size from the front of the buffer. -/
def specDecodeKey : List MatchFieldInfo → List Nat → List BmMatchParam
  | [], _ => []
  | f :: fs, buf => specDecodeField f buf :: specDecodeKey fs (buf.drop (field_encoded_size f))

/-- Whether a field's match type forces an explicit priority
(Ternary or Range). -/
def field_needs_priority (f : MatchFieldInfo) : Bool :=
  match f.match_type with
  | .ternary => true
  | .range => true
  | _ => false

/-- The per-parameter loop of `dump_action_data`: for each declared
parameter bit width, the corresponding (possibly zero-trimmed) parameter
byte string is written as `diff = nbytes - p.size()` zero bytes followed by
the parameter bytes.  The source `assert(nbytes >= p.size())` is modelled
as `none`; a length mismatch between the two lists cannot occur here
because `dump_action_data` checks it first. -/
def dump_params : List Nat → List (List Nat) → Option (List Nat)
  | [], [] => some []
  | bw :: bws, p :: ps =>
    let nbytes := nbytes_of bw
    if nbytes < p.length then none
    else
      match dump_params bws ps with
      | none => none
      | some rest => some ((List.replicate (nbytes - p.length) 0 ++ p) ++ rest)
  | _, _ => none

/-- `dump_action_data`: pack the action parameters returned by the device
into one contiguous buffer, each left-zero-padded to its declared byte
width.  The source `assert(num_params == params.size())` is modelled as
`none`. -/
def dump_action_data (paramBitwidths : List Nat) (params : List (List Nat)) :
    Option (List Nat) :=
  if paramBitwidths.length = params.length then dump_params paramBitwidths params
  else none

/-- Spec-side packed form of one parameter: `diff` zero bytes then the
parameter bytes, where `diff = declaredByteWidth - actualLength`. -/
def specPackParam (bw : Nat) (p : List Nat) : List Nat :=
  List.replicate ((bw + 7) / 8 - p.length) 0 ++ p

/-- Status of a successful operation (`PI_STATUS_SUCCESS`). -/
def PI_STATUS_SUCCESS : Nat := 0

/-- Modelled from the spec: the base of the reserved status range used to
surface device-reported error codes (`PI_STATUS_TARGET_ERROR`, defined in
the PI headers, not in this translation unit); a device error `c` is
surfaced as `PI_STATUS_TARGET_ERROR + c`. -/
def PI_STATUS_TARGET_ERROR : Nat := 2048

/-- Modelled from the spec: the distinct pre-device status returned when a
default-action set names a different action than the table's declared
fixed (const) default action (`PI_STATUS_CONST_DEFAULT_ACTION`, defined in
the PI headers, not in this translation unit). -/
def PI_STATUS_CONST_DEFAULT_ACTION : Nat := 100

/-- Modelled from the spec: the reserved bit position of the priority
property in the per-entry properties bitmap
(`PI_ENTRY_PROPERTY_TYPE_PRIORITY`, defined in the PI headers, not in this
translation unit). -/
def PI_ENTRY_PROPERTY_TYPE_PRIORITY : Nat := 0

/-- Modelled from the spec: a `w`-byte fixed-width big-endian encoding of
an unsigned value, used by the `emit_*` PI serialization helpers. -/
def beBytes : Nat → Nat → List Nat
  | 0, _ => []
  | w + 1, v => beBytes w (v / 256) ++ [v % 256]

/-- Modelled from the spec: `emit_uint32` writes a value as 4 bytes and
advances the cursor by 4. -/
def emit_uint32 (v : Nat) : List Nat := beBytes 4 v

/-- Modelled from the spec: `emit_entry_handle` writes an entry handle as
8 bytes (wire-endian fixed width). -/
def emit_entry_handle (v : Nat) : List Nat := beBytes 8 v

/-- Modelled from the spec: `emit_p4_id` writes a p4 object id as
4 bytes. -/
def emit_p4_id (v : Nat) : List Nat := beBytes 4 v

/-- The per-match-param serialization performed by the fill pass of
`_pi_table_entries_fetch` (the `switch (p.type)` over the entry's match
key): raw key bytes, LPM key then 4-byte prefix length, ternary key then
mask, one byte for valid, range start then end. -/
def emitMatchParam : BmMatchParam → List Nat
  | .exact key => key
  | .lpm key plen => key ++ emit_uint32 plen
  | .ternary key mask => key ++ mask
  | .valid b => [if b then 1 else 0]
  | .range start stop => start ++ stop

/-- One action of a table, as the schema describes it: name, id and the
declared bit widths of its parameters (`pi_p4info_action_*`). -/
structure ActionInfo where
  name : String
  id : Nat
  paramBitwidths : List Nat
deriving DecidableEq, Repr

/-- The schema data of one table consumed by the codec: ordered
match-field descriptors, its actions, and the declared const default
action when there is one. -/
structure TableInfo where
  matchFields : List MatchFieldInfo
  actions : List ActionInfo
  constDefaultAction : Option Nat
deriving DecidableEq, Repr

/-- The `action_map.at(name)` lookup built by `_pi_table_entries_fetch`
from the table's actions; `none` models the `std::out_of_range` thrown on
a name that is not an action of the table. -/
def findAction (actions : List ActionInfo) (name : String) : Option ActionInfo :=
  actions.find? (fun a => a.name == name)

/-- Modelled from the spec: `get_action_data_size` (PI helper, not in this
translation unit) is the sum of the declared byte widths of the action's
parameters. -/
def get_action_data_size (a : ActionInfo) : Nat :=
  (a.paramBitwidths.map nbytes_of).sum

/-- Modelled from the spec: `get_match_key_size` (PI helper, not in this
translation unit) is the per-table match-key byte size, the sum of the
per-field encoded sizes. -/
def get_match_key_size (tbl : TableInfo) : Nat :=
  (tbl.matchFields.map field_encoded_size).sum

/-- `BmActionEntryType` of a fetched entry's action entry. -/
inductive BmActionEntryType
  | NONE
  | ACTION_DATA
  | MBR_HANDLE
  | GRP_HANDLE
deriving DecidableEq, Repr

/-- A fetched entry's action entry (`BmActionEntry`): its type, the action
name, and the (possibly zero-trimmed) parameter byte strings. -/
structure BmActionEntry where
  action_type : BmActionEntryType
  action_name : String
  action_data : List (List Nat)
deriving DecidableEq, Repr

/-- Per-entry options returned by the device (`BmAddEntryOptions`):
`priority = some v` models `__isset.priority` with value `v`. -/
structure BmAddEntryOptions where
  priority : Option Nat
deriving DecidableEq, Repr

/-- One table entry returned by `bm_mt_get_entries` (`BmMtEntry`). -/
structure BmMtEntry where
  entry_handle : Nat
  match_key : List BmMatchParam
  action_entry : BmActionEntry
  options : BmAddEntryOptions
deriving DecidableEq, Repr

/-- The bytes written for one entry by the fill pass of
`_pi_table_entries_fetch`, in source order: 8-byte handle, the match-key
encodings, 4-byte action id, 4-byte action-data size, the packed action
data, then either the priority bitmap and 4-byte priority value (when
`options.__isset.priority`) or the 4-byte zero bitmap alone.  `none`
models the `assert(action_type == ACTION_DATA)`, a failed `action_map.at`
lookup, or a failed assert inside `dump_action_data`. -/
def serialize_entry (tbl : TableInfo) (e : BmMtEntry) : Option (List Nat) :=
  if e.action_entry.action_type ≠ BmActionEntryType.ACTION_DATA then none
  else
    match findAction tbl.actions e.action_entry.action_name with
    | none => none
    | some ainfo =>
      match dump_action_data ainfo.paramBitwidths e.action_entry.action_data with
      | none => none
      | some adBytes =>
        some (emit_entry_handle e.entry_handle ++
          (e.match_key.map emitMatchParam).flatten ++
          emit_p4_id ainfo.id ++
          emit_uint32 (get_action_data_size ainfo) ++
          adBytes ++
          (match e.options.priority with
            | some pr =>
              emit_uint32 (2 ^ PI_ENTRY_PROPERTY_TYPE_PRIORITY) ++ emit_uint32 pr
            | none => emit_uint32 0))

/-- The whole fill pass: entries are written one after the other through
the advancing cursor. -/
def serialize_entries (tbl : TableInfo) : List BmMtEntry → Option (List Nat)
  | [] => some []
  | e :: es =>
    match serialize_entry tbl e with
    | none => none
    | some b =>
      match serialize_entries tbl es with
      | none => none
      | some rest => some (b ++ rest)

/-- The per-entry part of the size pass that depends on the entry: the
`action_map.at(e.action_entry.action_name).s` action-data sizes summed
over the batch (`none` models the `std::out_of_range` of `.at`). -/
def compute_adata_total (tbl : TableInfo) : List BmMtEntry → Option Nat
  | [] => some 0
  | e :: es =>
    match findAction tbl.actions e.action_entry.action_name with
    | none => none
    | some ainfo =>
      match compute_adata_total tbl es with
      | none => none
      | some rest => some (get_action_data_size ainfo + rest)

/-- The result record filled in by a successful fetch
(`pi_table_fetch_res_t`): `entries_size` is the byte length reported to
the caller, `written` the bytes actually laid down by the fill pass. -/
structure FetchRes where
  num_entries : Nat
  mkey_nbytes : Nat
  entries_size : Nat
  written : List Nat
deriving DecidableEq, Repr

/-- Outcome of `_pi_table_entries_fetch`: a device error surfaced as a
status, a fatal abort (failed assert or uncaught lookup exception), or a
filled result. -/
inductive FetchOutcome
  | deviceError (status : Nat)
  | fatal
  | ok (res : FetchRes)
deriving DecidableEq, Repr

/-- `_pi_table_entries_fetch`: ask the device for the entries (the single
`bm_mt_get_entries` call is modelled by the `devResult` argument), compute
the allocation size (pass 1), report it as `entries_size`, then fill the
buffer (pass 2). -/
def _pi_table_entries_fetch (tbl : TableInfo)
    (devResult : Except Nat (List BmMtEntry)) : FetchOutcome :=
  match devResult with
  | .error c => .deviceError (PI_STATUS_TARGET_ERROR + c)
  | .ok entries =>
    let n := entries.length
    let mkey_nbytes := get_match_key_size tbl
    match compute_adata_total tbl entries with
    | none => .fatal
    | some adTotal =>
      let data_size :=
        n * 8 + n * 4 + n * 4 + n * 2 * 4 + n * mkey_nbytes + adTotal
      match serialize_entries tbl entries with
      | none => .fatal
      | some written =>
        .ok { num_entries := n, mkey_nbytes := mkey_nbytes,
              entries_size := data_size, written := written }

/-- Whether a fetch returned normally with a filled result. -/
def FetchOutcome.isOk : FetchOutcome → Bool
  | .ok _ => true
  | _ => false

/-- The `entries_size` reported to the caller (0 when no result). -/
def FetchOutcome.reportedSize : FetchOutcome → Nat
  | .ok r => r.entries_size
  | _ => 0

/-- The number of bytes actually written by the fill pass (0 when no
result). -/
def FetchOutcome.writtenLen : FetchOutcome → Nat
  | .ok r => r.written.length
  | _ => 0

/-- The caller-visible status of a fetch (`none` when the process dies on
an assert instead of returning). -/
def FetchOutcome.statusOf : FetchOutcome → Option Nat
  | .deviceError s => some s
  | .fatal => none
  | .ok _ => some PI_STATUS_SUCCESS

/-- A decoded match param agrees with a field descriptor: same tag, and
every byte string has exactly the field's byte width.  This is what the
device guarantees for the entries it returns (the codec relies on it, as
the spec's record-tag invariant). -/
def conformsb (f : MatchFieldInfo) (p : BmMatchParam) : Bool :=
  let w := (f.bitwidth + 7) / 8
  match f.match_type, p with
  | .valid, .valid _ => true
  | .exact, .exact k => k.length == w
  | .lpm, .lpm k _ => k.length == w
  | .ternary, .ternary k m => k.length == w && m.length == w
  | .range, .range s t => s.length == w && t.length == w
  | _, _ => false

/-- A fetched match key agrees with the table's descriptors field by
field. -/
def matchKeyWF (fields : List MatchFieldInfo) (ps : List BmMatchParam) : Bool :=
  fields.length == ps.length &&
    (List.zip fields ps).all (fun fp => conformsb fp.1 fp.2)

/-- A fetched action entry agrees with the schema: the action name is an
action of the table, the parameter count matches, and no parameter is
longer than its declared byte width. -/
def actionWF (tbl : TableInfo) (ae : BmActionEntry) : Bool :=
  match findAction tbl.actions ae.action_name with
  | none => false
  | some ainfo =>
    ainfo.paramBitwidths.length == ae.action_data.length &&
      (List.zip ainfo.paramBitwidths ae.action_data).all
        (fun bp => decide (bp.2.length ≤ (bp.1 + 7) / 8))

/-- A fetched entry the serializer can handle: a direct action-data entry
whose match key and action data agree with the schema. -/
def entryWF (tbl : TableInfo) (e : BmMtEntry) : Bool :=
  e.action_entry.action_type == BmActionEntryType.ACTION_DATA &&
    matchKeyWF tbl.matchFields e.match_key &&
    actionWF tbl e.action_entry

/-- The action-data byte size the size pass accounts for an entry (0 when
the action name is unknown; that case aborts the fetch anyway). -/
def entry_adata_size (tbl : TableInfo) (e : BmMtEntry) : Nat :=
  match findAction tbl.actions e.action_entry.action_name with
  | some a => get_action_data_size a
  | none => 0

/-- A one-exact-field table with a single parameterless action, used as a
concrete test fixture. -/
def tbl0 : TableInfo :=
  { matchFields := [⟨MatchType.exact, 8⟩],
    actions := [⟨"a", 7, []⟩],
    constDefaultAction := none }

/-- A fetched entry of `tbl0` with no priority set. -/
def e0 : BmMtEntry :=
  { entry_handle := 1,
    match_key := [BmMatchParam.exact [9]],
    action_entry := ⟨BmActionEntryType.ACTION_DATA, "a", []⟩,
    options := ⟨none⟩ }

/-- A fetched entry of `tbl0` with priority 7 set. -/
def e1 : BmMtEntry :=
  { entry_handle := 2,
    match_key := [BmMatchParam.exact [3]],
    action_entry := ⟨BmActionEntryType.ACTION_DATA, "a", []⟩,
    options := ⟨some 7⟩ }

/-- An indirect (member-handle) entry of `tbl0`, as the device returns for
tables bound to action profiles. -/
def eInd : BmMtEntry :=
  { entry_handle := 3,
    match_key := [BmMatchParam.exact [4]],
    action_entry := ⟨BmActionEntryType.MBR_HANDLE, "a", []⟩,
    options := ⟨none⟩ }

/-- Result of one table operation: the returned status and the number of
device calls made while handling it. -/
structure OpResult where
  status : Nat
  deviceCalls : Nat
deriving DecidableEq, Repr

/-- `pi_table_entry_t.entry_type` of the entry passed to add
(`PI_ACTION_ENTRY_TYPE_*`). -/
inductive TableEntryType
  | DATA
  | INDIRECT
  | NONE
deriving DecidableEq, Repr

/-- Result of `_pi_table_entry_add`: status, the handle written back on
success, the number of device calls, and the priority option sent to the
device (set only when the key requires a priority, defaulted to 0 when the
caller supplied none). -/
structure AddResult where
  status : Nat
  handle : Option Nat
  deviceCalls : Nat
  sentPriority : Option Nat
deriving DecidableEq, Repr

/-- `_pi_table_entry_add`: decode the key, build the options, dispatch on
the entry type (the `default: assert(0)` is modelled as `none`), and make
the single device call, whose outcome is the `devResult` argument; an
`InvalidTableOperation` with code `c` is returned as
`PI_STATUS_TARGET_ERROR + c`. -/
def _pi_table_entry_add (tbl : TableInfo) (mkData : List Nat)
    (entryType : TableEntryType) (propPriority : Option Nat)
    (devResult : Except Nat Nat) : Option AddResult :=
  let rp := (build_key tbl.matchFields mkData).2
  let sentPriority : Option Nat :=
    if rp then some (propPriority.getD 0) else none
  match entryType with
  | .NONE => none
  | _ =>
    match devResult with
    | .error c =>
      some { status := PI_STATUS_TARGET_ERROR + c, handle := none,
             deviceCalls := 1, sentPriority := sentPriority }
    | .ok h =>
      some { status := PI_STATUS_SUCCESS, handle := some h,
             deviceCalls := 1, sentPriority := sentPriority }

/-- `_pi_table_default_action_set`: a table with a declared const default
action rejects a different action id locally, before any device call;
otherwise the single `bm_mt_set_default_action` call is made. -/
def _pi_table_default_action_set (tbl : TableInfo) (action_id : Nat)
    (devResult : Except Nat Unit) : OpResult :=
  match tbl.constDefaultAction with
  | some defaultId =>
    if defaultId ≠ action_id then
      { status := PI_STATUS_CONST_DEFAULT_ACTION, deviceCalls := 0 }
    else
      match devResult with
      | .error c => { status := PI_STATUS_TARGET_ERROR + c, deviceCalls := 1 }
      | .ok _ => { status := PI_STATUS_SUCCESS, deviceCalls := 1 }
  | none =>
    match devResult with
    | .error c => { status := PI_STATUS_TARGET_ERROR + c, deviceCalls := 1 }
    | .ok _ => { status := PI_STATUS_SUCCESS, deviceCalls := 1 }

/-- `_pi_table_default_action_get`: the single `bm_mt_get_default_entry`
call, then re-serialization of the returned action data; the asserts and
the invalid-action lookup are modelled as `none`. -/
def _pi_table_default_action_get (tbl : TableInfo)
    (devResult : Except Nat BmActionEntry) : Option OpResult :=
  match devResult with
  | .error c => some { status := PI_STATUS_TARGET_ERROR + c, deviceCalls := 1 }
  | .ok entry =>
    if entry.action_type = BmActionEntryType.NONE then
      some { status := PI_STATUS_SUCCESS, deviceCalls := 1 }
    else if entry.action_type ≠ BmActionEntryType.ACTION_DATA then none
    else
      match findAction tbl.actions entry.action_name with
      | none => none
      | some ainfo =>
        match dump_action_data ainfo.paramBitwidths entry.action_data with
        | none => none
        | some _ => some { status := PI_STATUS_SUCCESS, deviceCalls := 1 }

/-- `_pi_table_entry_delete`: the single `bm_mt_delete_entry` call and its
error handling. -/
def _pi_table_entry_delete (devResult : Except Nat Unit) : OpResult :=
  match devResult with
  | .error c => { status := PI_STATUS_TARGET_ERROR + c, deviceCalls := 1 }
  | .ok _ => { status := PI_STATUS_SUCCESS, deviceCalls := 1 }

/-- `_pi_table_entry_modify`: the single `bm_mt_modify_entry` call and its
error handling. -/
def _pi_table_entry_modify (devResult : Except Nat Unit) : OpResult :=
  match devResult with
  | .error c => { status := PI_STATUS_TARGET_ERROR + c, deviceCalls := 1 }
  | .ok _ => { status := PI_STATUS_SUCCESS, deviceCalls := 1 }

/-- A table of `tbl0`'s shape that declares action 7 as its const default
action. -/
def tblC : TableInfo :=
  { matchFields := [],
    actions := [⟨"a", 7, []⟩],
    constDefaultAction := some 7 }

lemma field_needs_priority_iff (f : MatchFieldInfo) :
    field_needs_priority f = true ↔
      f.match_type = MatchType.ternary ∨ f.match_type = MatchType.range := by
  cases h : f.match_type <;> simp [field_needs_priority, h]

lemma getD_zero_drop (l : List Nat) (n : Nat) :
    (l.drop n).getD 0 0 = l.getD n 0 := by
  induction l generalizing n with
  | nil => cases n <;> simp
  | cons a t ih =>
    cases n with
    | zero => simp
    | succ m => simp [ih m]

/-- The cursor-style decode loop equals the spec-style decode of the
dropped buffer; the priority flag is the running flag or-ed with the
presence of a ternary/range field; the cursor advances by exactly the sum
of per-field encoded sizes. -/
lemma build_key_go_spec (data : List Nat) (fields : List MatchFieldInfo) :
    ∀ (pos : Nat) (rp : Bool),
      build_key_go data fields pos rp =
        (specDecodeKey fields (data.drop pos),
          rp || fields.any field_needs_priority,
          pos + (fields.map field_encoded_size).sum) := by
  induction fields with
  | nil => intro pos rp; simp [build_key_go, specDecodeKey]
  | cons f fs ih =>
    intro pos rp
    cases hmt : f.match_type <;>
      simp [build_key_go, specDecodeKey, specDecodeField, field_encoded_size,
        field_needs_priority, hmt, ih, List.drop_drop, getD_zero_drop, nbytes_of,
        Nat.add_assoc]

/-- Claim C2: decoding a match-key buffer is a single forward pass in
descriptor order with exactly the claimed per-field consumptions (Valid 1
byte with `present = byte ≠ 0`; Exact `byteWidth` bytes; LPM `byteWidth`
key bytes then a 4-byte prefix length; Ternary key then mask, Range start
then end, each of `byteWidth` bytes), and the total consumption is the sum
of the per-field sizes; the Exact(8-bit)/Ternary(16-bit) scenario decodes
`[0x2A, 0x00, 0x01, 0xFF, 0xFF]` to
`[Exact{0x2A}, Ternary{key = 0x0001, mask = 0xFFFF}]` with
`requiresPriority = true`. -/
theorem build_key_single_pass_decode :
    (∀ (fields : List MatchFieldInfo) (data : List Nat),
        (build_key fields data).1 = specDecodeKey fields data ∧
        build_key_consumed fields data = (fields.map field_encoded_size).sum) ∧
      build_key [⟨MatchType.exact, 8⟩, ⟨MatchType.ternary, 16⟩]
          [42, 0, 1, 255, 255] =
        ([BmMatchParam.exact [42], BmMatchParam.ternary [0, 1] [255, 255]], true) := by
  refine ⟨fun fields data => ?_, by decide⟩
  have h := build_key_go_spec data fields 0 false
  exact ⟨by simp [build_key, h], by simp [build_key_consumed, h]⟩

/-- Claim C3: the `requires_priority` flag computed by `build_key` is true
iff at least one field descriptor has match type Ternary or Range. -/
theorem build_key_requires_priority_iff :
    ∀ (fields : List MatchFieldInfo) (data : List Nat),
      (build_key fields data).2 = true ↔
        ∃ f ∈ fields,
          f.match_type = MatchType.ternary ∨ f.match_type = MatchType.range := by
  intro fields data
  have h := build_key_go_spec data fields 0 false
  simp [build_key, h, List.any_eq_true, field_needs_priority_iff]

lemma dump_params_eq_of_fits :
    ∀ (bws : List Nat) (ps : List (List Nat)),
      bws.length = ps.length →
      (∀ bp ∈ List.zip bws ps, bp.2.length ≤ (bp.1 + 7) / 8) →
      dump_params bws ps =
        some (((List.zip bws ps).map fun bp => specPackParam bp.1 bp.2).flatten)
  | [], [], _, _ => by simp [dump_params]
  | bw :: bws, p :: ps, hlen, hfit => by
    have hp : p.length ≤ (bw + 7) / 8 := hfit (bw, p) (by simp)
    have hrest := dump_params_eq_of_fits bws ps (by simpa using hlen)
      (fun bp hbp => hfit bp (by simp [hbp]))
    simp [dump_params, nbytes_of, Nat.not_lt.mpr hp, hrest, specPackParam]
  | [], _ :: _, hlen, _ => by simp at hlen
  | _ :: _, [], hlen, _ => by simp at hlen

lemma dump_params_length :
    ∀ (bws : List Nat) (ps : List (List Nat)) (out : List Nat),
      dump_params bws ps = some out →
      out.length = (bws.map nbytes_of).sum
  | [], [], out, h => by simp [dump_params] at h; simp [h]
  | bw :: bws, p :: ps, out, h => by
    rw [dump_params] at h
    by_cases hlt : nbytes_of bw < p.length
    · simp [hlt] at h
    · simp [hlt] at h
      cases hrest : dump_params bws ps with
      | none => simp [hrest] at h
      | some rest =>
        have := dump_params_length bws ps rest hrest
        simp [hrest] at h
        simp [← h, this]
        omega
  | [], _ :: _, out, h => by simp [dump_params] at h
  | _ :: _, [], out, h => by simp [dump_params] at h

lemma dump_params_none_of_oversize :
    ∀ (bws : List Nat) (ps : List (List Nat)),
      (∃ bp ∈ List.zip bws ps, (bp.1 + 7) / 8 < bp.2.length) →
      dump_params bws ps = none
  | [], [], h => by simp at h
  | [], _ :: _, _ => by simp [dump_params]
  | _ :: _, [], _ => by simp [dump_params]
  | bw :: bws, p :: ps, h => by
    rw [dump_params]
    by_cases hlt : nbytes_of bw < p.length
    · simp [hlt]
    · have hhd : ¬ (bw + 7) / 8 < p.length := by simpa [nbytes_of] using hlt
      rcases h with ⟨bp, hbp, hsz⟩
      rcases List.mem_cons.mp (by simpa using hbp) with heq | htl
      · rw [heq] at hsz
        simp at hsz
        exact absurd hsz hhd
      · have := dump_params_none_of_oversize bws ps ⟨bp, htl, hsz⟩
        simp [hlt, this]

/-- Claim C6: when every parameter fits its declared byte width and the
counts match, `dump_action_data` writes, for each parameter in order,
`declaredByteWidth - actualLength` zero bytes followed by the parameter's
bytes, concatenated with no separators. -/
theorem dump_action_data_pads :
    ∀ (bws : List Nat) (ps : List (List Nat)),
      bws.length = ps.length →
      (∀ bp ∈ List.zip bws ps, bp.2.length ≤ (bp.1 + 7) / 8) →
      dump_action_data bws ps =
        some (((List.zip bws ps).map fun bp => specPackParam bp.1 bp.2).flatten) := by
  intro bws ps hlen hfit
  simp [dump_action_data, hlen, dump_params_eq_of_fits bws ps hlen hfit]

/-- Claim C6 witness: `pack([0x05], declaredByteWidth = 4)` (a 32-bit
parameter) yields `[0x00, 0x00, 0x00, 0x05]`, and packing an empty
parameter list yields an empty buffer. -/
theorem dump_action_data_pads_witness :
    dump_action_data [32] [[5]] = some [0, 0, 0, 5] ∧
      dump_action_data [] [] = some [] := by
  refine ⟨?_, ?_⟩
  · have h := dump_action_data_pads [32] [[5]] (by decide) (by decide)
    simpa using h
  · have h := dump_action_data_pads [] [] (by decide) (by decide)
    simpa using h

/-- Claim C7: packing fails (fatally, modelled as `none`) exactly when the
parameter count differs from the declared count or some parameter is
longer than its declared byte width; under the precondition that counts
match and every parameter fits, packing succeeds. -/
theorem dump_action_data_fail_iff :
    ∀ (bws : List Nat) (ps : List (List Nat)),
      (dump_action_data bws ps = none ↔
        bws.length ≠ ps.length ∨
          ∃ bp ∈ List.zip bws ps, (bp.1 + 7) / 8 < bp.2.length) ∧
      (bws.length = ps.length →
        (∀ bp ∈ List.zip bws ps, bp.2.length ≤ (bp.1 + 7) / 8) →
        (dump_action_data bws ps).isSome = true) := by
  intro bws ps
  constructor
  · constructor
    · intro hnone
      by_cases hlen : bws.length = ps.length
      · refine Or.inr ?_
        by_contra hno
        push_neg at hno
        have := dump_action_data_pads bws ps hlen (fun bp hbp => hno bp hbp)
        rw [this] at hnone
        exact Option.noConfusion hnone
      · exact Or.inl hlen
    · rintro (hlen | hover)
      · simp [dump_action_data, hlen]
      · by_cases hlen : bws.length = ps.length
        · simp [dump_action_data, hlen, dump_params_none_of_oversize bws ps hover]
        · simp [dump_action_data, hlen]
  · intro hlen hfit
    simp [dump_action_data_pads bws ps hlen hfit]

/-- Claim C7 witness: a parameter of length 5 with declared byte width 4
(32 bits) is rejected. -/
theorem dump_action_data_fail_iff_witness :
    dump_action_data [32] [[1, 2, 3, 4, 5]] = none := by
  exact (dump_action_data_fail_iff [32] [[1, 2, 3, 4, 5]]).1.mpr
    (Or.inr ⟨(32, [1, 2, 3, 4, 5]), by decide, by decide⟩)

lemma beBytes_length : ∀ (w v : Nat), (beBytes w v).length = w
  | 0, _ => rfl
  | w + 1, v => by simp [beBytes, beBytes_length w]

lemma emit_uint32_length (v : Nat) : (emit_uint32 v).length = 4 := beBytes_length 4 v

lemma emit_entry_handle_length (v : Nat) : (emit_entry_handle v).length = 8 :=
  beBytes_length 8 v

lemma emit_p4_id_length (v : Nat) : (emit_p4_id v).length = 4 := beBytes_length 4 v

lemma conformsb_emit_length (f : MatchFieldInfo) (p : BmMatchParam)
    (h : conformsb f p = true) :
    (emitMatchParam p).length = field_encoded_size f := by
  cases hmt : f.match_type <;> cases p <;>
    simp [conformsb, hmt] at h <;>
    simp [emitMatchParam, field_encoded_size, hmt, emit_uint32_length, h]

lemma matchKeyWF_flatten_length :
    ∀ (fields : List MatchFieldInfo) (ps : List BmMatchParam),
      matchKeyWF fields ps = true →
      ((ps.map emitMatchParam).flatten).length = (fields.map field_encoded_size).sum
  | [], [], _ => rfl
  | [], _ :: _, h => by simp [matchKeyWF] at h
  | _ :: _, [], h => by simp [matchKeyWF] at h
  | f :: fs, p :: ps, h => by
    simp only [matchKeyWF, Bool.and_eq_true, beq_iff_eq, List.length_cons,
      List.zip_cons_cons, List.all_cons] at h
    have hlen : fs.length = ps.length := by omega
    have ih := matchKeyWF_flatten_length fs ps
      (by simp [matchKeyWF, hlen, h.2.2])
    simp [ih, conformsb_emit_length f p h.2.1]

lemma dump_action_data_length (bws : List Nat) (ps : List (List Nat))
    (out : List Nat) (h : dump_action_data bws ps = some out) :
    out.length = (bws.map nbytes_of).sum := by
  rw [dump_action_data] at h
  by_cases hlen : bws.length = ps.length
  · rw [if_pos hlen] at h
    exact dump_params_length bws ps out h
  · rw [if_neg hlen] at h
    exact Option.noConfusion h

lemma entryWF_parts (tbl : TableInfo) (e : BmMtEntry) (h : entryWF tbl e = true) :
    e.action_entry.action_type = BmActionEntryType.ACTION_DATA ∧
      matchKeyWF tbl.matchFields e.match_key = true ∧
      actionWF tbl e.action_entry = true := by
  simpa [entryWF, Bool.and_eq_true, and_assoc] using h

lemma actionWF_parts (tbl : TableInfo) (ae : BmActionEntry)
    (h : actionWF tbl ae = true) :
    ∃ ainfo, findAction tbl.actions ae.action_name = some ainfo ∧
      ainfo.paramBitwidths.length = ae.action_data.length ∧
      ∀ bp ∈ List.zip ainfo.paramBitwidths ae.action_data,
        bp.2.length ≤ (bp.1 + 7) / 8 := by
  rw [actionWF] at h
  cases hfa : findAction tbl.actions ae.action_name with
  | none => rw [hfa] at h; exact Bool.noConfusion h
  | some ainfo =>
    rw [hfa] at h
    simp only [Bool.and_eq_true, beq_iff_eq, List.all_eq_true, decide_eq_true_eq] at h
    exact ⟨ainfo, rfl, h.1, h.2⟩

/-- A well-formed entry serializes, to a record of exactly
`16 + matchKeySize + actionDataSize + (8 with priority, 4 without)`
bytes. -/
lemma serialize_entry_wf (tbl : TableInfo) (e : BmMtEntry)
    (h : entryWF tbl e = true) :
    ∃ out, serialize_entry tbl e = some out ∧
      out.length = 16 + get_match_key_size tbl + entry_adata_size tbl e +
        (match e.options.priority with | some _ => 8 | none => 4) := by
  obtain ⟨htype, hmk, hact⟩ := entryWF_parts tbl e h
  obtain ⟨ainfo, hfa, hcnt, hfit⟩ := actionWF_parts tbl e.action_entry hact
  have hdump := dump_action_data_pads ainfo.paramBitwidths e.action_entry.action_data
    hcnt hfit
  have hser : serialize_entry tbl e = some
      (emit_entry_handle e.entry_handle ++
        (e.match_key.map emitMatchParam).flatten ++
        emit_p4_id ainfo.id ++
        emit_uint32 (get_action_data_size ainfo) ++
        ((List.zip ainfo.paramBitwidths e.action_entry.action_data).map
          (fun bp => specPackParam bp.1 bp.2)).flatten ++
        (match e.options.priority with
          | some pr =>
            emit_uint32 (2 ^ PI_ENTRY_PROPERTY_TYPE_PRIORITY) ++ emit_uint32 pr
          | none => emit_uint32 0)) := by
    simp [serialize_entry, htype, hfa, hdump]
  refine ⟨_, hser, ?_⟩
  · have hmkl := matchKeyWF_flatten_length tbl.matchFields e.match_key hmk
    have hadl := dump_action_data_length ainfo.paramBitwidths
      e.action_entry.action_data _ hdump
    cases hpr : e.options.priority <;>
      simp [hpr, hmkl, hadl, emit_uint32_length, emit_entry_handle_length,
        emit_p4_id_length, get_match_key_size, get_action_data_size,
        entry_adata_size, hfa] <;>
      omega

lemma compute_adata_total_wf (tbl : TableInfo) :
    ∀ (entries : List BmMtEntry),
      entries.all (entryWF tbl) = true →
      compute_adata_total tbl entries =
        some ((entries.map (entry_adata_size tbl)).sum)
  | [], _ => rfl
  | e :: es, h => by
    simp only [List.all_cons, Bool.and_eq_true] at h
    obtain ⟨_, _, hact⟩ := entryWF_parts tbl e h.1
    obtain ⟨ainfo, hfa, -, -⟩ := actionWF_parts tbl e.action_entry hact
    rw [compute_adata_total, hfa, compute_adata_total_wf tbl es h.2]
    simp [entry_adata_size, hfa]

lemma serialize_entries_wf (tbl : TableInfo) :
    ∀ (entries : List BmMtEntry),
      entries.all (entryWF tbl) = true →
      ∃ out, serialize_entries tbl entries = some out ∧
        out.length ≤ (entries.map
          (fun e => 24 + get_match_key_size tbl + entry_adata_size tbl e)).sum ∧
        ((∃ e ∈ entries, e.options.priority = none) →
          out.length < (entries.map
            (fun e => 24 + get_match_key_size tbl + entry_adata_size tbl e)).sum)
  | [], _ => ⟨[], rfl, by simp⟩
  | e :: es, h => by
    simp only [List.all_cons, Bool.and_eq_true] at h
    obtain ⟨b, hb, hblen⟩ := serialize_entry_wf tbl e h.1
    obtain ⟨rest, hrest, hrle, hrlt⟩ := serialize_entries_wf tbl es h.2
    refine ⟨b ++ rest, by rw [serialize_entries, hb, hrest], ?_, ?_⟩
    · have : b.length ≤ 24 + get_match_key_size tbl + entry_adata_size tbl e := by
        rw [hblen]; cases e.options.priority <;> simp <;> omega
      simp only [List.map_cons, List.sum_cons, List.length_append]
      omega
    · rintro ⟨w, hw, hwpr⟩
      simp only [List.map_cons, List.sum_cons, List.length_append]
      rcases List.mem_cons.mp hw with rfl | hwes
      · have : b.length < 24 + get_match_key_size tbl + entry_adata_size tbl w := by
          simp [hblen, hwpr]; omega
        omega
      · have := hrlt ⟨w, hwes, hwpr⟩
        have hble : b.length ≤ 24 + get_match_key_size tbl + entry_adata_size tbl e := by
          rw [hblen]; cases e.options.priority <;> simp <;> omega
        omega

lemma serialize_entries_none (tbl : TableInfo) :
    ∀ (entries : List BmMtEntry) (e : BmMtEntry),
      e ∈ entries → serialize_entry tbl e = none →
      serialize_entries tbl entries = none
  | [], _, he, _ => absurd he (List.not_mem_nil _)
  | x :: xs, e, he, hn => by
    rcases List.mem_cons.mp he with rfl | hxs
    · rw [serialize_entries, hn]
    · rw [serialize_entries]
      cases hx : serialize_entry tbl x with
      | none => rfl
      | some b => rw [serialize_entries_none tbl xs e hxs hn]

/-- The allocation-size formula of the size pass, as the claim states
it. -/
lemma fetch_wf_shape (tbl : TableInfo) (entries : List BmMtEntry)
    (h : entries.all (entryWF tbl) = true) :
    ∃ written,
      _pi_table_entries_fetch tbl (.ok entries) =
        .ok { num_entries := entries.length,
              mkey_nbytes := get_match_key_size tbl,
              entries_size := entries.length * 8 +
                entries.length * 4 + entries.length * 4 +
                entries.length * 2 * 4 +
                entries.length * get_match_key_size tbl +
                (entries.map (entry_adata_size tbl)).sum,
              written := written } ∧
        written.length ≤ (entries.map
          (fun e => 24 + get_match_key_size tbl + entry_adata_size tbl e)).sum ∧
        ((∃ e ∈ entries, e.options.priority = none) →
          written.length < (entries.map
            (fun e => 24 + get_match_key_size tbl + entry_adata_size tbl e)).sum) := by
  obtain ⟨out, hout, hle, hlt⟩ := serialize_entries_wf tbl entries h
  refine ⟨out, ?_, hle, hlt⟩
  rw [_pi_table_entries_fetch, compute_adata_total_wf tbl entries h, hout]

lemma sum_map_const_add (tbl : TableInfo) :
    ∀ (entries : List BmMtEntry),
      (entries.map
        (fun e => 24 + get_match_key_size tbl + entry_adata_size tbl e)).sum =
      entries.length * (24 + get_match_key_size tbl) +
        (entries.map (entry_adata_size tbl)).sum
  | [] => by simp
  | e :: es => by
    simp only [List.map_cons, List.sum_cons, List.length_cons,
      sum_map_const_add tbl es, Nat.succ_mul]
    omega

/-- Claim C4: the serializer writes each fetched entry as, in this exact
order: the 8-byte handle, the per-field match-key encodings with no tags
or counts, the 4-byte action id, the 4-byte action-data length, the packed
action data, and then either the 4-byte zero bitmap alone (no priority) or
the 4-byte bitmap with the single priority bit set followed by the 4-byte
priority value; the 4-byte priority field is omitted entirely when no
priority is present. -/
theorem fetch_entry_record_layout :
    ∀ (tbl : TableInfo) (e : BmMtEntry) (ainfo : ActionInfo) (adBytes : List Nat),
      e.action_entry.action_type = BmActionEntryType.ACTION_DATA →
      findAction tbl.actions e.action_entry.action_name = some ainfo →
      dump_action_data ainfo.paramBitwidths e.action_entry.action_data = some adBytes →
      serialize_entry tbl e = some
        (emit_entry_handle e.entry_handle ++
          (e.match_key.map emitMatchParam).flatten ++
          emit_p4_id ainfo.id ++
          emit_uint32 (get_action_data_size ainfo) ++
          adBytes ++
          (match e.options.priority with
            | some pr =>
              emit_uint32 (2 ^ PI_ENTRY_PROPERTY_TYPE_PRIORITY) ++ emit_uint32 pr
            | none => emit_uint32 0)) ∧
      (emit_entry_handle e.entry_handle).length = 8 ∧
      (emit_p4_id ainfo.id).length = 4 ∧
      (emit_uint32 (get_action_data_size ainfo)).length = 4 ∧
      emit_uint32 0 = [0, 0, 0, 0] ∧
      emit_uint32 (2 ^ PI_ENTRY_PROPERTY_TYPE_PRIORITY) = [0, 0, 0, 1] ∧
      (∀ pr, (emit_uint32 pr).length = 4) := by
  intro tbl e ainfo adBytes htype hfa hdump
  exact ⟨by simp [serialize_entry, htype, hfa, hdump],
    emit_entry_handle_length _, emit_p4_id_length _, emit_uint32_length _,
    by decide, by decide, fun pr => emit_uint32_length pr⟩

/-- Claim C4 witness: the layout theorem applied to a concrete entry of
`tbl0` carrying priority 7. -/
theorem fetch_entry_record_layout_witness :
    serialize_entry tbl0 e1 = some
      (emit_entry_handle e1.entry_handle ++
        (e1.match_key.map emitMatchParam).flatten ++
        emit_p4_id 7 ++
        emit_uint32 (get_action_data_size ⟨"a", 7, []⟩) ++
        [] ++
        (emit_uint32 (2 ^ PI_ENTRY_PROPERTY_TYPE_PRIORITY) ++ emit_uint32 7)) := by
  have h := (fetch_entry_record_layout tbl0 e1 ⟨"a", 7, []⟩ []
    (by decide) (by decide) (by decide)).1
  simpa using h

/-- Claim C5: for a batch of well-formed fetched entries the size pass
computes `N*8 + N*matchKeySize + N*4 + N*4 + N*2*4 + Σ actionDataSize`,
and the bytes written by the fill pass never exceed it. -/
theorem fetch_alloc_ge_written :
    ∀ (tbl : TableInfo) (entries : List BmMtEntry) (adTotal : Nat),
      entries.all (entryWF tbl) = true →
      compute_adata_total tbl entries = some adTotal →
      (_pi_table_entries_fetch tbl (.ok entries)).isOk = true ∧
      (_pi_table_entries_fetch tbl (.ok entries)).reportedSize =
        entries.length * 8 + entries.length * get_match_key_size tbl +
          entries.length * 4 + entries.length * 4 +
          entries.length * 2 * 4 + adTotal ∧
      (_pi_table_entries_fetch tbl (.ok entries)).writtenLen ≤
        (_pi_table_entries_fetch tbl (.ok entries)).reportedSize := by
  intro tbl entries adTotal hwf had
  obtain ⟨written, hfetch, hle, -⟩ := fetch_wf_shape tbl entries hwf
  rw [compute_adata_total_wf tbl entries hwf] at had
  have hadv : adTotal = (entries.map (entry_adata_size tbl)).sum :=
    (Option.some.inj had).symm
  rw [hfetch]
  refine ⟨rfl, ?_, ?_⟩
  · simp only [FetchOutcome.reportedSize, hadv]
    omega
  · simp only [FetchOutcome.reportedSize, FetchOutcome.writtenLen]
    rw [sum_map_const_add tbl entries, Nat.mul_add] at hle
    omega

/-- Claim C5 witness: the allocation-sufficiency theorem at a concrete
two-entry batch of `tbl0`. -/
theorem fetch_alloc_ge_written_witness :
    (_pi_table_entries_fetch tbl0 (.ok [e0, e1])).isOk = true ∧
      (_pi_table_entries_fetch tbl0 (.ok [e0, e1])).reportedSize =
        [e0, e1].length * 8 + [e0, e1].length * get_match_key_size tbl0 +
          [e0, e1].length * 4 + [e0, e1].length * 4 +
          [e0, e1].length * 2 * 4 + 0 ∧
      (_pi_table_entries_fetch tbl0 (.ok [e0, e1])).writtenLen ≤
        (_pi_table_entries_fetch tbl0 (.ok [e0, e1])).reportedSize :=
  fetch_alloc_ge_written tbl0 [e0, e1] 0 (by decide) (by decide)

/-- Claim C1 counterexample: on a one-entry batch of `tbl0` whose entry
has no priority, the length reported to the caller (`entries_size`) is the
allocated 25 bytes while the fill pass writes only 21 bytes — the reported
length is the allocated capacity, not the written length. -/
theorem fetch_reports_allocated_cex :
    (_pi_table_entries_fetch tbl0 (.ok [e0])).reportedSize = 25 ∧
      (_pi_table_entries_fetch tbl0 (.ok [e0])).writtenLen = 21 ∧
      (_pi_table_entries_fetch tbl0 (.ok [e0])).reportedSize ≠
        (_pi_table_entries_fetch tbl0 (.ok [e0])).writtenLen := by decide

/-- Claim C1 (amended): the byte length reported alongside the result
buffer is the allocated size from the size pass; the bytes actually
written never exceed it, and when at least one entry of the batch has no
priority set the written length is strictly less than the reported
(allocated) length. -/
theorem fetch_reported_size_is_allocated :
    ∀ (tbl : TableInfo) (entries : List BmMtEntry),
      entries.all (entryWF tbl) = true →
      (_pi_table_entries_fetch tbl (.ok entries)).isOk = true ∧
      (_pi_table_entries_fetch tbl (.ok entries)).writtenLen ≤
        (_pi_table_entries_fetch tbl (.ok entries)).reportedSize ∧
      ((∃ e ∈ entries, e.options.priority = none) →
        (_pi_table_entries_fetch tbl (.ok entries)).writtenLen <
          (_pi_table_entries_fetch tbl (.ok entries)).reportedSize) := by
  intro tbl entries hwf
  obtain ⟨written, hfetch, hle, hlt⟩ := fetch_wf_shape tbl entries hwf
  rw [hfetch]
  rw [sum_map_const_add tbl entries, Nat.mul_add] at hle hlt
  refine ⟨rfl, ?_, fun hex => ?_⟩
  · simp only [FetchOutcome.reportedSize, FetchOutcome.writtenLen]
    omega
  · have := hlt hex
    simp only [FetchOutcome.reportedSize, FetchOutcome.writtenLen]
    omega

/-- Claim C1 witness (for the amended claim): on the one-entry
no-priority batch the written length is strictly below the reported
length. -/
theorem fetch_reported_size_is_allocated_witness :
    (_pi_table_entries_fetch tbl0 (.ok [e0])).writtenLen <
      (_pi_table_entries_fetch tbl0 (.ok [e0])).reportedSize :=
  (fetch_reported_size_is_allocated tbl0 [e0] (by decide)).2.2
    ⟨e0, by simp, rfl⟩

/-- Claim C10: the fetch serializer requires every fetched entry to be a
direct action-data entry: a batch containing an entry of any other action
type dies fatally (failed assertion) instead of producing a buffer, and a
batch of well-formed direct entries serializes normally. -/
theorem fetch_asserts_direct_action_data :
    ∀ (tbl : TableInfo) (entries : List BmMtEntry),
      ((∃ e ∈ entries,
          e.action_entry.action_type ≠ BmActionEntryType.ACTION_DATA) →
        _pi_table_entries_fetch tbl (.ok entries) = FetchOutcome.fatal) ∧
      (entries.all (entryWF tbl) = true →
        (_pi_table_entries_fetch tbl (.ok entries)).isOk = true) := by
  intro tbl entries
  constructor
  · rintro ⟨e, he, htype⟩
    have hser : serialize_entry tbl e = none := by
      rw [serialize_entry, if_pos htype]
    have hnone := serialize_entries_none tbl entries e he hser
    cases had : compute_adata_total tbl entries with
    | none => simp [_pi_table_entries_fetch, had]
    | some adTotal => simp [_pi_table_entries_fetch, had, hnone]
  · intro hwf
    obtain ⟨written, hfetch, -, -⟩ := fetch_wf_shape tbl entries hwf
    rw [hfetch]
    rfl

/-- Claim C10 witness: a batch holding an indirect (member-handle) entry
aborts instead of serializing. -/
theorem fetch_asserts_direct_action_data_witness :
    _pi_table_entries_fetch tbl0 (.ok [e0, eInd]) = FetchOutcome.fatal :=
  (fetch_asserts_direct_action_data tbl0 [e0, eInd]).1
    ⟨eInd, by simp, by decide⟩

/-- Claim C8: on a table declaring a const default action, a
default-action set naming a different action id returns the distinct
fixed-default-action-conflict status without any device call; when the
ids match, or no const default action is declared, the request goes to
the device. -/
theorem default_action_set_const_conflict :
    ∀ (tbl : TableInfo) (action_id : Nat) (devResult : Except Nat Unit),
      (∀ defaultId, tbl.constDefaultAction = some defaultId →
        defaultId ≠ action_id →
        _pi_table_default_action_set tbl action_id devResult =
          { status := PI_STATUS_CONST_DEFAULT_ACTION, deviceCalls := 0 }) ∧
      ((tbl.constDefaultAction = some action_id ∨
          tbl.constDefaultAction = none) →
        (_pi_table_default_action_set tbl action_id devResult).deviceCalls = 1) := by
  intro tbl aid dev
  constructor
  · intro defaultId hconst hne
    simp [_pi_table_default_action_set, hconst, hne]
  · rintro (hconst | hconst) <;> cases dev <;>
      simp [_pi_table_default_action_set, hconst]

/-- Claim C8 witness: setting action 9 on `tblC` (const default 7) is
rejected with no device call; setting action 7 reaches the device. -/
theorem default_action_set_const_conflict_witness :
    _pi_table_default_action_set tblC 9 (.ok ()) =
        { status := PI_STATUS_CONST_DEFAULT_ACTION, deviceCalls := 0 } ∧
      (_pi_table_default_action_set tblC 7 (.ok ())).deviceCalls = 1 :=
  ⟨(default_action_set_const_conflict tblC 9 (.ok ())).1 7 rfl (by decide),
    (default_action_set_const_conflict tblC 7 (.ok ())).2 (Or.inl rfl)⟩

/-- Claim C9: every table operation surfaces a device-reported error code
`c` as exactly `PI_STATUS_TARGET_ERROR + c` from a single device call
(no retry), and returns `PI_STATUS_SUCCESS = 0` when the device call
succeeds. -/
theorem table_ops_surface_device_errors :
    ∀ (c : Nat) (tbl : TableInfo) (mkData : List Nat)
      (entryType : TableEntryType) (propPriority : Option Nat) (h : Nat)
      (aid : Nat) (ae : BmActionEntry) (entries : List BmMtEntry),
      (entryType ≠ TableEntryType.NONE →
        ((_pi_table_entry_add tbl mkData entryType propPriority (.error c)).map
            AddResult.status = some (PI_STATUS_TARGET_ERROR + c) ∧
          (_pi_table_entry_add tbl mkData entryType propPriority (.error c)).map
            AddResult.deviceCalls = some 1 ∧
          (_pi_table_entry_add tbl mkData entryType propPriority (.ok h)).map
            AddResult.status = some PI_STATUS_SUCCESS ∧
          (_pi_table_entry_add tbl mkData entryType propPriority (.ok h)).map
            AddResult.deviceCalls = some 1)) ∧
      (_pi_table_entry_modify (.error c) =
          { status := PI_STATUS_TARGET_ERROR + c, deviceCalls := 1 } ∧
        _pi_table_entry_modify (.ok ()) =
          { status := PI_STATUS_SUCCESS, deviceCalls := 1 }) ∧
      (_pi_table_entry_delete (.error c) =
          { status := PI_STATUS_TARGET_ERROR + c, deviceCalls := 1 } ∧
        _pi_table_entry_delete (.ok ()) =
          { status := PI_STATUS_SUCCESS, deviceCalls := 1 }) ∧
      ((tbl.constDefaultAction = some aid ∨ tbl.constDefaultAction = none) →
        (_pi_table_default_action_set tbl aid (.error c) =
            { status := PI_STATUS_TARGET_ERROR + c, deviceCalls := 1 } ∧
          _pi_table_default_action_set tbl aid (.ok ()) =
            { status := PI_STATUS_SUCCESS, deviceCalls := 1 })) ∧
      (_pi_table_default_action_get tbl (.error c) =
          some { status := PI_STATUS_TARGET_ERROR + c, deviceCalls := 1 } ∧
        (ae.action_type = BmActionEntryType.ACTION_DATA →
          actionWF tbl ae = true →
          _pi_table_default_action_get tbl (.ok ae) =
            some { status := PI_STATUS_SUCCESS, deviceCalls := 1 })) ∧
      ((_pi_table_entries_fetch tbl (.error c)).statusOf =
          some (PI_STATUS_TARGET_ERROR + c) ∧
        (entries.all (entryWF tbl) = true →
          (_pi_table_entries_fetch tbl (.ok entries)).statusOf =
            some PI_STATUS_SUCCESS)) := by
  intro c tbl mkData entryType propPriority h aid ae entries
  refine ⟨?_, ⟨rfl, rfl⟩, ⟨rfl, rfl⟩, ?_, ⟨rfl, ?_⟩, ⟨rfl, ?_⟩⟩
  · intro hne
    cases entryType with
    | NONE => exact absurd rfl hne
    | DATA => simp [_pi_table_entry_add]
    | INDIRECT => simp [_pi_table_entry_add]
  · rintro (hconst | hconst) <;>
      simp [_pi_table_default_action_set, hconst]
  · intro htype hwf
    obtain ⟨ainfo, hfa, hcnt, hfit⟩ := actionWF_parts tbl ae hwf
    have hdump := dump_action_data_pads ainfo.paramBitwidths ae.action_data
      hcnt hfit
    simp [_pi_table_default_action_get, htype, hfa, hdump]
  · intro hwf
    obtain ⟨written, hfetch, -, -⟩ := fetch_wf_shape tbl entries hwf
    rw [hfetch]
    rfl

/-- Claim C9 witness: each operation at a concrete input — device error 5
surfaces as `PI_STATUS_TARGET_ERROR + 5` and device success returns
`PI_STATUS_SUCCESS`. -/
theorem table_ops_surface_device_errors_witness :
    (_pi_table_entry_add tbl0 [] TableEntryType.DATA none (.error 5)).map
        AddResult.status = some (PI_STATUS_TARGET_ERROR + 5) ∧
      _pi_table_entry_modify (.error 5) =
        { status := PI_STATUS_TARGET_ERROR + 5, deviceCalls := 1 } ∧
      _pi_table_entry_delete (.ok ()) =
        { status := PI_STATUS_SUCCESS, deviceCalls := 1 } ∧
      _pi_table_default_action_set tbl0 0 (.error 5) =
        { status := PI_STATUS_TARGET_ERROR + 5, deviceCalls := 1 } ∧
      _pi_table_default_action_get tbl0
          (.ok ⟨BmActionEntryType.ACTION_DATA, "a", []⟩) =
        some { status := PI_STATUS_SUCCESS, deviceCalls := 1 } ∧
      (_pi_table_entries_fetch tbl0 (.ok [e0])).statusOf =
        some PI_STATUS_SUCCESS := by
  have h := table_ops_surface_device_errors 5 tbl0 [] TableEntryType.DATA
    none 11 0 ⟨BmActionEntryType.ACTION_DATA, "a", []⟩ [e0]
  exact ⟨(h.1 (by decide)).1, h.2.1.1, h.2.2.1.2,
    (h.2.2.2.1 (Or.inr rfl)).1, h.2.2.2.2.1.2 rfl (by decide),
    h.2.2.2.2.2.2 (by decide)⟩

end PIBmv2
